import Mathlib

/-!
Shallow embedding of the `vane` flow-field engine (`src/field.rs`).

Modelling conventions:
* `f32` scalars are modelled as `ℚ` with exact arithmetic (the spec's claims
  under scrutiny are algebraic or are decided by index/panic behaviour, not by
  `f32` rounding).
* `u32` values are modelled as `ℕ`; wherever `u32` arithmetic can overflow
  (the texel count and the flat-index computation) the result is reduced
  `% 2^32`, matching release-mode wrapping semantics.
* Half-precision (`f16`) compression is modelled by `f16round`, an executable
  round-to-nearest-even onto the half-precision grid of representable finite
  values (subnormals included; values beyond the finite range are rounded on
  the top binade's grid instead of overflowing to infinity — no claim touches
  that region).  Decompression `f16 → f32` is exact, hence the identity.
* Rust panics (out-of-bounds slice indexing) are modelled by `Option`:
  `none` is a panic.
-/

namespace Vane

/-- Nonnegative integer 3-vector, the model of `bevy_math::UVec3` (`u32` lanes). -/
structure UVec3 where
  x : ℕ
  y : ℕ
  z : ℕ
  deriving DecidableEq, Repr

/-- Rational 3-vector, the model of `bevy_math::Vec3`. -/
structure Vec3 where
  x : ℚ
  y : ℚ
  z : ℚ
  deriving DecidableEq, Repr

/-- Rational 4-vector, the model of `bevy_math::Vec4`. -/
structure Vec4 where
  x : ℚ
  y : ℚ
  z : ℚ
  w : ℚ
  deriving DecidableEq, Repr

/-- Componentwise addition on `Vec4` (glam `Vec4: Add`). -/
def Vec4.add (a b : Vec4) : Vec4 := ⟨a.x + b.x, a.y + b.y, a.z + b.z, a.w + b.w⟩

/-- Componentwise negation on `Vec4` (glam `Vec4: Neg`). -/
def Vec4.neg (a : Vec4) : Vec4 := ⟨-a.x, -a.y, -a.z, -a.w⟩

/-- Componentwise subtraction on `Vec4` (glam `Vec4: Sub`). -/
def Vec4.sub (a b : Vec4) : Vec4 := ⟨a.x - b.x, a.y - b.y, a.z - b.z, a.w - b.w⟩

/-- Scalar multiplication on `Vec4` (glam `Vec4: Mul<f32>`). -/
def Vec4.smul (a : Vec4) (k : ℚ) : Vec4 := ⟨a.x * k, a.y * k, a.z * k, a.w * k⟩

/-- The zero 4-vector (`Vec4::ZERO`). -/
def Vec4.zero : Vec4 := ⟨0, 0, 0, 0⟩

/-- `FlowVector` is a transparent wrapper of `Vec4` in the source
(`struct FlowVector(Vec4)`); we model it as `Vec4` itself. -/
abbrev FlowVector := Vec4

/-- `FlowVector::new(momentum_density, density)` = `momentum_density.extend(density)`. -/
def FlowVector.new (momentumDensity : Vec3) (density : ℚ) : FlowVector :=
  ⟨momentumDensity.x, momentumDensity.y, momentumDensity.z, density⟩

/-- `FlowVector::ZERO` (`Vec4::ZERO`). -/
def FlowVector.zero : FlowVector := Vec4.zero

/-- `FlowVector: Add` delegates to `Vec4` addition. -/
def FlowVector.add (a b : FlowVector) : FlowVector := Vec4.add a b

/-- `FlowVector: Mul<f32>` delegates to `Vec4` scalar multiplication. -/
def FlowVector.smul (a : FlowVector) (k : ℚ) : FlowVector := Vec4.smul a k

-- HALF-PRECISION COMPRESSION MODEL --------------------------------------------

/-- Integer power of two as a rational: `pow2 e = 2^e` for `e : ℤ`. -/
def pow2 (e : ℤ) : ℚ := if 0 ≤ e then (2 : ℚ) ^ e.toNat else 1 / (2 : ℚ) ^ (-e).toNat

/-- Floor of a rational as an integer, executable (`⌊q⌋ = num.fdiv den`). -/
def qfloor (q : ℚ) : ℤ := q.num.fdiv q.den

/-- Round a rational to the nearest integer, ties to even (IEEE default). -/
def rne (q : ℚ) : ℤ :=
  let n := qfloor q
  let frac := q - (n : ℚ)
  if frac < 1 / 2 then n
  else if 1 / 2 < frac then n + 1
  else if n % 2 = 0 then n else n + 1

/-- Binade exponent for half precision: the largest `e ∈ [-14, 15]` with
`2^e ≤ a` (clamped below to the subnormal regime's `-14`). -/
def f16exp (a : ℚ) : ℤ :=
  (List.range 30).foldl (fun acc k => if pow2 ((k : ℤ) - 14) ≤ a then (k : ℤ) - 14 else acc) (-14)

/-- Round a rational to the half-precision (`f16`) grid, nearest-even: the
model of `f16::from_f32` followed by exact decompression back to a real value.
Subnormal spacing is `2^-24`; the binade `[2^e, 2^(e+1))` has spacing
`2^(e-10)`. -/
def f16round (q : ℚ) : ℚ :=
  if q = 0 then 0
  else
    let a := |q|
    let sgn : ℚ := if 0 < q then 1 else -1
    let step := if a < pow2 (-14) then pow2 (-24) else pow2 (f16exp a - 10)
    sgn * (rne (a / step) : ℚ) * step

/-- A compressed texel: `[f16; 4]`.  We record the exact real value each `f16`
lane denotes (decompression `f16 → f32` is exact). -/
abbrev RawFlowVector := Vec4

/-- Compress a full-precision flow vector to a texel, lane by lane
(`convert_from_f32_slice`, i.e. `f16::from_f32` per channel). -/
def compressVec (v : FlowVector) : RawFlowVector :=
  ⟨f16round v.x, f16round v.y, f16round v.z, f16round v.w⟩

/-- Decompress a texel to a full-precision flow vector
(`convert_to_f32_slice`; `f16 → f32` is exact, hence the identity). -/
def decompressVec (r : RawFlowVector) : FlowVector := r

-- FIELD ASSET TYPE ------------------------------------------------------------

/-- The `FlowField` asset: optional label, grid extents, flat compressed texels. -/
structure FlowField where
  label : Option String
  size : UVec3
  texels : List RawFlowVector
  deriving DecidableEq, Repr

/-- The texel `[f16::from_f32(0.0); 4]` used by `FlowField::zeroed`. -/
def zeroRaw : RawFlowVector := ⟨0, 0, 0, 0⟩

/-- `FlowField::zeroed(size)`: `(size.x * size.y * size.z)` texels (u32 product,
hence `% 2^32`), each the zero texel. -/
def FlowField.zeroed (size : UVec3) : FlowField :=
  { label := none
    size := size
    texels := List.replicate (size.x * size.y * size.z % 2 ^ 32) zeroRaw }

/-- `FlowField::with_label`. -/
def FlowField.withLabel (f : FlowField) (label : String) : FlowField :=
  { f with label := some label }

-- EDIT SESSION (FlowFieldGuard) -----------------------------------------------

/-- The edit session `FlowFieldGuard`: the field's size and the decompressed
full-precision scratch buffer.  (The exclusive borrow of `texels` is implicit:
the write-back is `FlowField.dropGuard`.) -/
structure FlowFieldGuard where
  size : UVec3
  scratch : List FlowVector
  deriving DecidableEq, Repr

/-- `FlowField::modify`: open a session, decompressing every texel into the
scratch buffer (`convert_to_f32_slice`). -/
def FlowField.modify (f : FlowField) : FlowFieldGuard :=
  { size := f.size, scratch := f.texels.map decompressVec }

/-- `FlowFieldGuard::coords_to_index`, verbatim from the source:
`size.x * size.y * coords.z + size.x * coords.y + size.x` (u32 arithmetic,
hence `% 2^32`).  Note the last summand is `size.x`, not `coords.x`. -/
def FlowFieldGuard.coordsToIndex (gd : FlowFieldGuard) (coords : UVec3) : ℕ :=
  (gd.size.x * gd.size.y * coords.z + gd.size.x * coords.y + gd.size.x) % 2 ^ 32

/-- `FlowFieldGuard::get`: read the scratch slot; `none` models the
out-of-bounds panic of `self.scratch[index]`. -/
def FlowFieldGuard.get (gd : FlowFieldGuard) (coords : UVec3) : Option FlowVector :=
  gd.scratch.get? (gd.coordsToIndex coords)

/-- A scratch-slot write at a coordinate; `none` models the out-of-bounds
panic.  Models both `FlowFieldGuard::set` and writing through
`FlowFieldGuard::get_mut`. -/
def FlowFieldGuard.set (gd : FlowFieldGuard) (coords : UVec3) (flowVector : FlowVector) :
    Option FlowFieldGuard :=
  let index := gd.coordsToIndex coords
  if index < gd.scratch.length then some { gd with scratch := gd.scratch.set index flowVector }
  else none

/-- The `Drop` impl of `FlowFieldGuard`: recompress the scratch buffer into the
field's texel storage (`convert_from_f32_slice`). -/
def FlowField.dropGuard (f : FlowField) (gd : FlowFieldGuard) : FlowField :=
  { f with texels := gd.scratch.map compressVec }

-- AFFINE TRANSFORMS (bevy_math / glam) ----------------------------------------

/-- Componentwise addition on `Vec3`. -/
def Vec3.add (a b : Vec3) : Vec3 := ⟨a.x + b.x, a.y + b.y, a.z + b.z⟩

/-- Componentwise negation on `Vec3`. -/
def Vec3.neg (a : Vec3) : Vec3 := ⟨-a.x, -a.y, -a.z⟩

/-- Scalar multiplication on `Vec3`. -/
def Vec3.smul (a : Vec3) (k : ℚ) : Vec3 := ⟨a.x * k, a.y * k, a.z * k⟩

/-- Cross product on `Vec3` (glam `Vec3A::cross`). -/
def Vec3.cross (a b : Vec3) : Vec3 :=
  ⟨a.y * b.z - a.z * b.y, a.z * b.x - a.x * b.z, a.x * b.y - a.y * b.x⟩

/-- Dot product on `Vec3` (glam `Vec3A::dot`). -/
def Vec3.dot (a b : Vec3) : ℚ := a.x * b.x + a.y * b.y + a.z * b.z

/-- Quaternion, the model of `bevy_math::Quat` (`x`, `y`, `z` imaginary, `w` real). -/
structure Quat where
  x : ℚ
  y : ℚ
  z : ℚ
  w : ℚ
  deriving DecidableEq, Repr

/-- Column-major 3×3 matrix, the model of glam `Mat3A`. -/
structure Mat3 where
  xAxis : Vec3
  yAxis : Vec3
  zAxis : Vec3
  deriving DecidableEq, Repr

/-- Matrix–vector product (glam `Mat3A::mul_vec3a`):
`x_axis * v.x + y_axis * v.y + z_axis * v.z`. -/
def Mat3.mulVec (m : Mat3) (v : Vec3) : Vec3 :=
  ((m.xAxis.smul v.x).add (m.yAxis.smul v.y)).add (m.zAxis.smul v.z)

/-- Matrix transpose (glam `Mat3A::transpose`). -/
def Mat3.transpose (m : Mat3) : Mat3 :=
  ⟨⟨m.xAxis.x, m.yAxis.x, m.zAxis.x⟩,
   ⟨m.xAxis.y, m.yAxis.y, m.zAxis.y⟩,
   ⟨m.xAxis.z, m.yAxis.z, m.zAxis.z⟩⟩

/-- Rotation matrix of a (unit) quaternion, glam `Mat3A::from_quat`. -/
def Mat3.fromQuat (q : Quat) : Mat3 :=
  ⟨⟨1 - 2 * q.y * q.y - 2 * q.z * q.z, 2 * q.x * q.y + 2 * q.w * q.z,
      2 * q.x * q.z - 2 * q.w * q.y⟩,
   ⟨2 * q.x * q.y - 2 * q.w * q.z, 1 - 2 * q.x * q.x - 2 * q.z * q.z,
      2 * q.y * q.z + 2 * q.w * q.x⟩,
   ⟨2 * q.x * q.z + 2 * q.w * q.y, 2 * q.y * q.z - 2 * q.w * q.x,
      1 - 2 * q.x * q.x - 2 * q.y * q.y⟩⟩

/-- Determinant via the scalar triple product, as in glam `Mat3A::inverse`
(`det = z_axis · (x_axis × y_axis)`). -/
def Mat3.det (m : Mat3) : ℚ := m.zAxis.dot (m.xAxis.cross m.yAxis)

/-- Matrix inverse, glam `Mat3A::inverse`: cross-product adjugate rows scaled
by `1/det`, then transposed.  (glam divides unguarded — infinities at
`det = 0`; in `ℚ` the reciprocal of `0` is `0`, equally meaningless there.) -/
def Mat3.inverse (m : Mat3) : Mat3 :=
  let tmp0 := m.yAxis.cross m.zAxis
  let tmp1 := m.zAxis.cross m.xAxis
  let tmp2 := m.xAxis.cross m.yAxis
  let det := m.zAxis.dot tmp2
  let invDet := det⁻¹
  (Mat3.mk (tmp0.smul invDet) (tmp1.smul invDet) (tmp2.smul invDet)).transpose

/-- Affine transform, the model of glam `Affine3A`. -/
structure Affine3 where
  matrix3 : Mat3
  translation : Vec3
  deriving DecidableEq, Repr

/-- Point transformation (glam `Affine3A::transform_point3`):
`matrix3 * p + translation`. -/
def Affine3.transformPoint3 (a : Affine3) (p : Vec3) : Vec3 :=
  (a.matrix3.mulVec p).add a.translation

/-- Affine inverse (glam `Affine3A::inverse`): invert the linear part, then
`translation = -(matrix3⁻¹ * translation)`. -/
def Affine3.inverse (a : Affine3) : Affine3 :=
  let matrix3 := a.matrix3.inverse
  ⟨matrix3, (matrix3.mulVec a.translation).neg⟩

/-- The `bevy_transform` `Transform` component: translation, rotation, scale. -/
structure Transform where
  translation : Vec3
  rotation : Quat
  scale : Vec3
  deriving DecidableEq, Repr

/-- `Transform::compute_affine` =
`Affine3A::from_scale_rotation_translation(scale, rotation, translation)`:
rotation matrix columns scaled per axis, translation copied. -/
def Transform.computeAffine (t : Transform) : Affine3 :=
  let r := Mat3.fromQuat t.rotation
  ⟨⟨r.xAxis.smul t.scale.x, r.yAxis.smul t.scale.y, r.zAxis.smul t.scale.z⟩, t.translation⟩

-- FIELD GENERATORS ------------------------------------------------------------

/-- The `FlowFieldGenerator` trait: `generate(&mut self, position) -> FlowVector`,
modelled as explicit state threading over a state type `σ`. -/
structure FlowFieldGen (σ : Type) where
  generate : σ → Vec3 → σ × FlowVector

/-- The `Uniform` generator: ignores position, returns the fixed value. -/
def uniformGen (value : FlowVector) : FlowFieldGen Unit :=
  ⟨fun s _ => (s, value)⟩

/-- The 0-tuple instance of `impl_flow_field_generator`: returns `FlowVector::ZERO`. -/
def unitGen : FlowFieldGen Unit :=
  ⟨fun s _ => (s, FlowVector.zero)⟩

/-- The 2-tuple instance of `impl_flow_field_generator`: starts from
`FlowVector::ZERO` and `+=`s each component generator's output at the same
position. -/
def pairGen {σ₁ σ₂ : Type} (g₁ : FlowFieldGen σ₁) (g₂ : FlowFieldGen σ₂) :
    FlowFieldGen (σ₁ × σ₂) :=
  ⟨fun s p =>
    let r₁ := g₁.generate s.1 p
    let r₂ := g₂.generate s.2 p
    ((r₁.1, r₂.1), FlowVector.add (FlowVector.add FlowVector.zero r₁.2) r₂.2)⟩

/-- The `Amplified` combinator: multiplies the inner output by the scalar. -/
def amplifiedGen {σ : Type} (g : FlowFieldGen σ) (multiplier : ℚ) : FlowFieldGen σ :=
  ⟨fun s p =>
    let r := g.generate s p
    (r.1, FlowVector.smul r.2 multiplier)⟩

/-- The `Transformed` combinator (`FlowFieldGenerator::transformed`): the
world-to-local affine is `transform.compute_affine().inverse()`, computed once
at construction (outside the per-call closure); each call maps the sample
position through it before delegating. -/
def transformedGen {σ : Type} (g : FlowFieldGen σ) (transform : Transform) : FlowFieldGen σ :=
  let worldToLocal := transform.computeAffine.inverse
  ⟨fun s p => g.generate s (worldToLocal.transformPoint3 p)⟩

-- FILL AND CONSTRUCTION -------------------------------------------------------

/-- The iteration order of `fill_from_gen`: `x` outermost, then `y`, then `z`. -/
def loopCoords (size : UVec3) : List UVec3 :=
  (List.range size.x).flatMap fun x =>
    (List.range size.y).flatMap fun y =>
      (List.range size.z).map fun z => ⟨x, y, z⟩

/-- The centered sample position `pos.as_vec3() + 0.5 - size.as_vec3() / 2`. -/
def samplePos (size : UVec3) (pos : UVec3) : Vec3 :=
  ⟨(pos.x : ℚ) + 1 / 2 - (size.x : ℚ) / 2,
   (pos.y : ℚ) + 1 / 2 - (size.y : ℚ) / 2,
   (pos.z : ℚ) + 1 / 2 - (size.z : ℚ) / 2⟩

/-- One iteration of the `fill_from_gen` loop body: evaluate the generator at
the centered position and `set` the result at the coordinate. -/
def fillStep {σ : Type} (g : FlowFieldGen σ) (acc : FlowFieldGuard × σ) (c : UVec3) :
    Option (FlowFieldGuard × σ) :=
  let pv := samplePos acc.1.size c
  let r := g.generate acc.2 pv
  (acc.1.set c r.2).map fun gd' => (gd', r.1)

/-- `FlowFieldGuard::fill_from_gen`: visit every coordinate in loop order,
evaluate the generator at the centered position, `set` the result.  `none`
models a panic escaping the loop. -/
def FlowFieldGuard.fillFromGen {σ : Type} (gd : FlowFieldGuard) (g : FlowFieldGen σ) (s : σ) :
    Option (FlowFieldGuard × σ) :=
  (loopCoords gd.size).foldlM (fillStep g) (gd, s)

/-- `FlowField::from_gen`: `zeroed`, then one edit session running
`fill_from_gen`, then the guard's drop write-back.  `none` models the panic
propagating out of the fill. -/
def FlowField.fromGen {σ : Type} (size : UVec3) (g : FlowFieldGen σ) (s : σ) :
    Option FlowField :=
  let f := FlowField.zeroed size
  (f.modify.fillFromGen g s).map fun acc => f.dropGuard acc.1

-- GPU MIRROR ------------------------------------------------------------------

/-- A GPU texture handle.  The render-device boundary is external; we model a
texture by a fresh allocation identity plus the descriptor data the source
passes (`label`, extent). -/
structure Texture where
  id : ℕ
  label : Option String
  extent : UVec3
  deriving DecidableEq, Repr

/-- A GPU texture-view handle (`texture.create_view`). -/
structure TextureView where
  id : ℕ
  label : Option String
  deriving DecidableEq, Repr

/-- The prepared render asset `GpuFlowField`. -/
structure GpuFlowField where
  label : Option String
  size : UVec3
  texture : Texture
  textureView : TextureView
  deriving DecidableEq, Repr

/-- `bevy_render::render_asset::PrepareAssetError` (the variants relevant to
this asset type; the source never constructs any of them). -/
inductive PrepareAssetError where
  | retryNextUpdate
  deriving DecidableEq, Repr

/-- One `render_queue.write_texture` call: target texture, the full byte
buffer (as texels), and the copy layout. -/
structure TextureWrite where
  textureId : ℕ
  data : List RawFlowVector
  bytesPerRow : ℕ
  rowsPerImage : ℕ
  extent : UVec3
  deriving DecidableEq, Repr

/-- `GpuFlowField::prepare_asset`.  The render device is modelled as a fresh-id
counter (`devCounter`): `create_texture` hands out `devCounter` and
`create_view` hands out `devCounter + 1`, so reuse is visible as an unchanged
counter and identical handles.  The queue is the list of uploads performed.
Mirrors the source: reuse the previous texture and view when the previous
mirror's size equals the source's size, else allocate fresh ones; then
unconditionally upload the whole texel buffer; always return `Ok`. -/
def prepareAsset (sourceAsset : FlowField) (previousAsset : Option GpuFlowField)
    (devCounter : ℕ) (queue : List TextureWrite) :
    Except PrepareAssetError GpuFlowField × ℕ × List TextureWrite :=
  let textureExtent := sourceAsset.size
  let reused : Option (Texture × TextureView) :=
    match previousAsset with
    | some prev => if prev.size = sourceAsset.size then some (prev.texture, prev.textureView)
                   else none
    | none => none
  let alloc : Texture × TextureView × ℕ :=
    match reused with
    | some (t, v) => (t, v, devCounter)
    | none =>
      let t : Texture := { id := devCounter, label := sourceAsset.label, extent := textureExtent }
      let v : TextureView := { id := devCounter + 1,
                               label := sourceAsset.label.map (fun l => l ++ "_view") }
      (t, v, devCounter + 2)
  let write : TextureWrite :=
    { textureId := alloc.1.id
      data := sourceAsset.texels
      bytesPerRow := sourceAsset.size.x * 8
      rowsPerImage := sourceAsset.size.y
      extent := textureExtent }
  (Except.ok { label := sourceAsset.label
               size := sourceAsset.size
               texture := alloc.1
               textureView := alloc.2.1 },
   alloc.2.2, queue ++ [write])

-- THEOREMS --------------------------------------------------------------------

/-- C7: the tuple sum composition evaluates each component generator at the
same position and adds the outputs (starting from `FlowVector::ZERO`), so the
pair composition equals `G1.evaluate(p) + G2.evaluate(p)`, and the empty
composition is the zero vector at every position. -/
theorem sum_composition :
    (∀ {σ₁ σ₂ : Type} (g₁ : FlowFieldGen σ₁) (g₂ : FlowFieldGen σ₂) (s₁ : σ₁) (s₂ : σ₂)
      (p : Vec3),
      ((pairGen g₁ g₂).generate (s₁, s₂) p).2
        = FlowVector.add (g₁.generate s₁ p).2 (g₂.generate s₂ p).2)
    ∧ (∀ (s : Unit) (p : Vec3), (unitGen.generate s p).2 = FlowVector.zero) := by
  constructor
  · intro σ₁ σ₂ g₁ g₂ s₁ s₂ p
    show FlowVector.add (FlowVector.add FlowVector.zero _) _ = _
    simp only [FlowVector.add, FlowVector.zero, Vec4.add, Vec4.zero, Vec4.mk.injEq]
    refine ⟨?_, ?_, ?_, ?_⟩ <;> ring
  · intro s p
    rfl

/-- Multiplying a matrix by its glam-style inverse on the left recovers the
vector, whenever the determinant is nonzero. -/
theorem Mat3.mulVec_inverse_cancel (m : Mat3) (v : Vec3) (h : m.det ≠ 0) :
    m.mulVec (m.inverse.mulVec v) = v := by
  obtain ⟨⟨a1, a2, a3⟩, ⟨b1, b2, b3⟩, ⟨c1, c2, c3⟩⟩ := m
  obtain ⟨v1, v2, v3⟩ := v
  simp only [Mat3.det, Mat3.inverse, Mat3.mulVec, Mat3.transpose, Vec3.cross, Vec3.dot,
    Vec3.add, Vec3.smul, Vec3.mk.injEq] at h ⊢
  refine ⟨?_, ?_, ?_⟩ <;> field_simp <;> ring

/-- Applying an affine transform after its glam-style inverse recovers the
point, whenever the linear part's determinant is nonzero. -/
theorem Affine3.transformPoint3_inverse_cancel (a : Affine3) (p : Vec3)
    (h : a.matrix3.det ≠ 0) :
    a.transformPoint3 (a.inverse.transformPoint3 p) = p := by
  obtain ⟨m, t⟩ := a
  simp only [Affine3.inverse, Affine3.transformPoint3] at h ⊢
  obtain ⟨⟨a1, a2, a3⟩, ⟨b1, b2, b3⟩, ⟨c1, c2, c3⟩⟩ := m
  obtain ⟨t1, t2, t3⟩ := t
  obtain ⟨p1, p2, p3⟩ := p
  simp only [Mat3.det, Mat3.inverse, Mat3.mulVec, Mat3.transpose, Vec3.cross, Vec3.dot,
    Vec3.add, Vec3.smul, Vec3.neg, Vec3.mk.injEq] at h ⊢
  refine ⟨?_, ?_, ?_⟩ <;> field_simp <;> ring

/-- C8: the transformed combinator stores `world_to_local`, the inverse of the
supplied transform's affine, once at construction, and
`transformed(G, T).evaluate(p) = G.evaluate(world_to_local · p)`; moreover the
stored matrix really is the inverse: whenever the affine's linear part is
invertible (nonzero determinant), mapping the sample position through it
inverts the transform's action. -/
theorem transformed_composition :
    ∀ {σ : Type} (g : FlowFieldGen σ) (t : Transform) (s : σ) (p : Vec3),
      (transformedGen g t).generate s p
        = g.generate s (t.computeAffine.inverse.transformPoint3 p)
      ∧ (t.computeAffine.matrix3.det ≠ 0 →
          t.computeAffine.transformPoint3 (t.computeAffine.inverse.transformPoint3 p) = p) := by
  intro σ g t s p
  exact ⟨rfl, fun hdet => Affine3.transformPoint3_inverse_cancel t.computeAffine p hdet⟩


section ConcreteEvaluation

attribute [local semireducible] Rat.add Rat.mul Rat.sub Rat.inv

/-- C1: the claim fails on the code.  `from_gen(size, uniform(v))` panics for
every grid with all dimensions positive, already at the smallest one: for
`size = (1,1,1)` the very first coordinate `(0,0,0)` is mapped by
`coords_to_index` to flat index `1·1·0 + 1·0 + 1 = 1`, one past the end of the
one-slot scratch buffer, so the fill's `set` indexes out of bounds (modelled
as `none`) and no field is ever returned — no in-range coordinate can be read
back at all. -/
theorem fromGen_uniform_panics_1x1x1 :
    ∀ v : FlowVector, FlowField.fromGen ⟨1, 1, 1⟩ (uniformGen v) () = none := by
  intro v
  rfl

/-- C3: the claim fails on the code.  Within a single edit session over the
`1×1×1` field, `set` (and likewise `get`) at the unique in-range coordinate
`(0,0,0)` computes flat index `1`, out of bounds for the length-1 scratch
buffer, and panics (modelled as `none`) instead of returning `v`. -/
theorem session_set_get_panics_1x1x1 :
    ∀ v : FlowVector,
      (FlowField.zeroed ⟨1, 1, 1⟩).modify.set ⟨0, 0, 0⟩ v = none
      ∧ (FlowField.zeroed ⟨1, 1, 1⟩).modify.get ⟨0, 0, 0⟩ = none := by
  intro v
  exact ⟨rfl, rfl⟩

/-- C2: the claim fails on the code.  In a `2×2×1` field, the coordinates
`(0,0,0)` and `(1,0,0)` both map to flat index `2` (the index ignores the
x-component), so after a session whose last write to `(0,0,0)` was
`set((0,0,0), (1,0,0,1))` followed by a write to the *different* coordinate
`(1,0,0)` with `(0,2,0,3)`, flushing (the guard's drop write-back) and
reopening a session, `get((0,0,0))` returns `(0,2,0,3)` — the other
coordinate's value — not `(1,0,0,1)` within half-precision error. -/
theorem flush_reopen_get_returns_other_coordinate_write :
    ((((FlowField.zeroed ⟨2, 2, 1⟩).modify.set ⟨0, 0, 0⟩ ⟨1, 0, 0, 1⟩).bind
        (fun gd₁ => gd₁.set ⟨1, 0, 0⟩ ⟨0, 2, 0, 3⟩)).map
      (fun gd₂ => ((FlowField.zeroed ⟨2, 2, 1⟩).dropGuard gd₂).modify.get ⟨0, 0, 0⟩))
      = some (some ⟨0, 2, 0, 3⟩)
    ∧ (⟨0, 2, 0, 3⟩ : FlowVector) ≠ ⟨1, 0, 0, 1⟩ := by
  exact ⟨by decide, by decide⟩

/-- C4: the flat-index computation `size.x*size.y*coords.z + size.x*coords.y +
size.x` ignores `coords.x` entirely: any two coordinates agreeing in `y` and
`z` share one scratch slot (a successful `set` through one is observed by
`get` through the other), and at `y = size.y - 1`, `z = size.z - 1` (all
dimensions ≥ 1) the index equals the scratch buffer's length, so `get` and
`set` go out of bounds there. -/
theorem coordsToIndex_ignores_x_and_overflows :
    (∀ (gd : FlowFieldGuard) (c₁ c₂ : UVec3), c₁.y = c₂.y → c₁.z = c₂.z →
      gd.coordsToIndex c₁ = gd.coordsToIndex c₂
      ∧ gd.get c₁ = gd.get c₂
      ∧ ∀ (v : FlowVector) (gd' : FlowFieldGuard),
          gd.set c₁ v = some gd' → gd'.get c₂ = some v)
    ∧ (∀ size c : UVec3, 1 ≤ size.x → 1 ≤ size.y → 1 ≤ size.z →
        c.y = size.y - 1 → c.z = size.z - 1 →
        (FlowField.zeroed size).modify.coordsToIndex c
          = (FlowField.zeroed size).modify.scratch.length
        ∧ (FlowField.zeroed size).modify.get c = none
        ∧ ∀ v : FlowVector, (FlowField.zeroed size).modify.set c v = none) := by
  constructor
  · intro gd c₁ c₂ hy hz
    have hidx : gd.coordsToIndex c₁ = gd.coordsToIndex c₂ := by
      simp only [FlowFieldGuard.coordsToIndex, hy, hz]
    refine ⟨hidx, ?_, ?_⟩
    · simp only [FlowFieldGuard.get, hidx]
    · intro v gd' hset
      simp only [FlowFieldGuard.set] at hset
      split at hset
      · rename_i hlt
        cases hset
        have hidx' : ({ gd with scratch := gd.scratch.set (gd.coordsToIndex c₁) v
            : FlowFieldGuard }).coordsToIndex c₂ = gd.coordsToIndex c₁ := by
          simp only [FlowFieldGuard.coordsToIndex, hy, hz]
        simp only [FlowFieldGuard.get, hidx']
        have hne : gd.scratch.get? (gd.coordsToIndex c₁) ≠ none := by
          rw [Ne, List.get?_eq_none]
          omega
        obtain ⟨a, ha⟩ := Option.ne_none_iff_exists'.mp hne
        rw [List.get?_set_eq, ha]
        rfl
      · cases hset
  · intro size c hx hy hz hcy hcz
    obtain ⟨a, ha⟩ : ∃ a, size.y = a + 1 := ⟨size.y - 1, by omega⟩
    obtain ⟨b, hb⟩ : ∃ b, size.z = b + 1 := ⟨size.z - 1, by omega⟩
    have hlen : (FlowField.zeroed size).modify.scratch.length
        = size.x * size.y * size.z % 2 ^ 32 := by
      simp [FlowField.modify, FlowField.zeroed]
    have hidx : (FlowField.zeroed size).modify.coordsToIndex c
        = size.x * size.y * size.z % 2 ^ 32 := by
      simp only [FlowFieldGuard.coordsToIndex, FlowField.modify, FlowField.zeroed]
      congr 1
      rw [hcy, hcz, ha, hb]
      simp only [Nat.add_sub_cancel]
      ring
    refine ⟨by rw [hidx, hlen], ?_, ?_⟩
    · simp only [FlowFieldGuard.get]
      rw [List.get?_eq_none, hidx, hlen]
    · intro v
      simp only [FlowFieldGuard.set]
      rw [hidx, hlen]
      simp

/-- Witness for C4: in the `2×2×2` field, reading `(0,0,0)` and `(1,0,0)`
gives the same slot, and at `(0,1,1)` the index overflows so `get` panics. -/
theorem coordsToIndex_ignores_x_and_overflows_witness :
    (FlowField.zeroed ⟨2, 2, 2⟩).modify.get ⟨0, 0, 0⟩
      = (FlowField.zeroed ⟨2, 2, 2⟩).modify.get ⟨1, 0, 0⟩
    ∧ (FlowField.zeroed ⟨2, 2, 2⟩).modify.get ⟨0, 1, 1⟩ = none :=
  ⟨(coordsToIndex_ignores_x_and_overflows.1 ((FlowField.zeroed ⟨2, 2, 2⟩).modify)
      ⟨0, 0, 0⟩ ⟨1, 0, 0⟩ rfl rfl).2.1,
   (coordsToIndex_ignores_x_and_overflows.2 ⟨2, 2, 2⟩ ⟨0, 1, 1⟩ (by decide) (by decide)
      (by decide) rfl rfl).2.1⟩

/-- A successful `set` neither resizes the scratch buffer nor changes the size. -/
theorem set_preserves (gd : FlowFieldGuard) (c : UVec3) (v : FlowVector)
    (gd' : FlowFieldGuard) (h : gd.set c v = some gd') :
    gd'.scratch.length = gd.scratch.length ∧ gd'.size = gd.size := by
  simp only [FlowFieldGuard.set] at h
  split at h
  · cases h
    simp [List.length_set]
  · cases h

/-- One fill step neither resizes the scratch buffer nor changes the size. -/
theorem fillStep_preserves {σ : Type} (g : FlowFieldGen σ) (acc acc' : FlowFieldGuard × σ)
    (c : UVec3) (h : fillStep g acc c = some acc') :
    acc'.1.scratch.length = acc.1.scratch.length ∧ acc'.1.size = acc.1.size := by
  simp only [fillStep, Option.map_eq_some'] at h
  obtain ⟨gd', hset, rfl⟩ := h
  exact set_preserves _ _ _ _ hset

/-- Folding fill steps over any coordinate list neither resizes the scratch
buffer nor changes the size. -/
theorem foldlM_fillStep_preserves {σ : Type} (g : FlowFieldGen σ) (l : List UVec3) :
    ∀ acc res : FlowFieldGuard × σ, l.foldlM (fillStep g) acc = some res →
      res.1.scratch.length = acc.1.scratch.length ∧ res.1.size = acc.1.size := by
  induction l with
  | nil =>
    intro acc res h
    rw [List.foldlM_nil] at h
    cases h
    exact ⟨rfl, rfl⟩
  | cons c tl ih =>
    intro acc res h
    rw [List.foldlM_cons] at h
    cases hstep : fillStep g acc c with
    | none => rw [hstep] at h; cases h
    | some acc₁ =>
      rw [hstep] at h
      obtain ⟨h₁, h₂⟩ := ih acc₁ res h
      obtain ⟨h₃, h₄⟩ := fillStep_preserves g acc acc₁ c hstep
      exact ⟨h₁.trans h₃, h₂.trans h₄⟩

/-- C5: the invariant `len(texels) = size.x*size.y*size.z` (u32 product, hence
`% 2^32`) holds at every construction path — `zeroed`, `from_gen` (whenever it
returns a field), `with_label` — and no session operation resizes storage:
`modify` builds a scratch buffer of the texels' length, `set` and
`fill_from_gen` preserve the scratch length, and the drop write-back stores
exactly the scratch buffer's length back into the field. -/
theorem texels_length_invariant :
    (∀ size : UVec3,
      (FlowField.zeroed size).texels.length = size.x * size.y * size.z % 2 ^ 32
      ∧ (FlowField.zeroed size).size = size)
    ∧ (∀ {σ : Type} (size : UVec3) (g : FlowFieldGen σ) (s : σ) (f : FlowField),
        FlowField.fromGen size g s = some f →
        f.texels.length = size.x * size.y * size.z % 2 ^ 32 ∧ f.size = size)
    ∧ (∀ (f : FlowField) (l : String),
        (f.withLabel l).texels.length = f.texels.length ∧ (f.withLabel l).size = f.size)
    ∧ (∀ f : FlowField, f.modify.scratch.length = f.texels.length)
    ∧ (∀ (gd : FlowFieldGuard) (c : UVec3) (v : FlowVector) (gd' : FlowFieldGuard),
        gd.set c v = some gd' → gd'.scratch.length = gd.scratch.length)
    ∧ (∀ {σ : Type} (gd : FlowFieldGuard) (g : FlowFieldGen σ) (s : σ)
        (acc : FlowFieldGuard × σ), gd.fillFromGen g s = some acc →
        acc.1.scratch.length = gd.scratch.length)
    ∧ (∀ (f : FlowField) (gd : FlowFieldGuard),
        (f.dropGuard gd).texels.length = gd.scratch.length
        ∧ (f.dropGuard gd).size = f.size) := by
  refine ⟨?_, ?_, ?_, ?_, ?_, ?_, ?_⟩
  · intro size
    simp [FlowField.zeroed]
  · intro σ size g s f h
    simp only [FlowField.fromGen, Option.map_eq_some'] at h
    obtain ⟨acc, hfill, rfl⟩ := h
    have hpres := foldlM_fillStep_preserves g _ _ _ hfill
    constructor
    · simp only [FlowField.dropGuard, List.length_map]
      rw [hpres.1]
      simp [FlowField.modify, FlowField.zeroed]
    · rfl
  · intro f l
    simp [FlowField.withLabel]
  · intro f
    simp [FlowField.modify]
  · intro gd c v gd' h
    exact (set_preserves gd c v gd' h).1
  · intro σ gd g s acc h
    exact (foldlM_fillStep_preserves g _ _ _ h).1
  · intro f gd
    simp [FlowField.dropGuard]

/-- Witness for C5: the `from_gen` invariant at degenerate size `(0,5,5)` and
`set` length preservation in the `2×2×2` field. -/
theorem texels_length_invariant_witness :
    ((⟨none, ⟨0, 5, 5⟩, []⟩ : FlowField).texels.length = 0 * 5 * 5 % 2 ^ 32)
    ∧ (⟨⟨2, 2, 2⟩, List.replicate 8 FlowVector.zero⟩ : FlowFieldGuard).scratch.length
        = (FlowField.zeroed ⟨2, 2, 2⟩).modify.scratch.length :=
  ⟨(texels_length_invariant.2.1 ⟨0, 5, 5⟩ (uniformGen FlowVector.zero) ()
      ⟨none, ⟨0, 5, 5⟩, []⟩ (by decide)).1,
   texels_length_invariant.2.2.2.2.1 ((FlowField.zeroed ⟨2, 2, 2⟩).modify) ⟨0, 0, 0⟩
      FlowVector.zero ⟨⟨2, 2, 2⟩, List.replicate 8 FlowVector.zero⟩ (by decide)⟩

/-- C6: `zeroed(size)` (a total function: no panic in the model) yields
`size.x*size.y*size.z` texels — the exact u32 product whenever it does not
overflow, and the wrapped product `% 2^32` in general — each texel the
half-precision encoding of the zero vector (which decompresses to exactly
zero); a zero dimension yields the empty array. -/
theorem zeroed_spec :
    ∀ size : UVec3,
      (FlowField.zeroed size).texels.length = size.x * size.y * size.z % 2 ^ 32
      ∧ (size.x * size.y * size.z < 2 ^ 32 →
          (FlowField.zeroed size).texels.length = size.x * size.y * size.z)
      ∧ (∀ t ∈ (FlowField.zeroed size).texels, t = zeroRaw)
      ∧ compressVec FlowVector.zero = zeroRaw
      ∧ decompressVec zeroRaw = FlowVector.zero
      ∧ (size.x = 0 ∨ size.y = 0 ∨ size.z = 0 → (FlowField.zeroed size).texels = []) := by
  intro size
  refine ⟨by simp [FlowField.zeroed], ?_, ?_, by decide, rfl, ?_⟩
  · intro h
    simp only [FlowField.zeroed, List.length_replicate]
    exact Nat.mod_eq_of_lt h
  · intro t ht
    exact List.eq_of_mem_replicate ht
  · intro h
    have hzero : size.x * size.y * size.z = 0 := by
      rcases h with h | h | h <;> simp [h]
    simp [FlowField.zeroed, hzero]

/-- Witness for C6: the `2×3×4` grid has exactly 24 zero texels, and the
`0×5×5` grid has none. -/
theorem zeroed_spec_witness :
    (FlowField.zeroed ⟨2, 3, 4⟩).texels.length = 2 * 3 * 4
    ∧ (FlowField.zeroed ⟨0, 5, 5⟩).texels = []
    ∧ zeroRaw = zeroRaw :=
  ⟨(zeroed_spec ⟨2, 3, 4⟩).2.1 (by norm_num),
   (zeroed_spec ⟨0, 5, 5⟩).2.2.2.2.2 (Or.inl rfl),
   (zeroed_spec ⟨1, 1, 1⟩).2.2.1 zeroRaw (by decide)⟩

/-- Witness for C8: a translation-by-`(1,2,3)` transform (identity rotation,
unit scale) has determinant 1, and the inverse maps `(5,7,9)` back correctly. -/
theorem transformed_composition_witness :
    (transformedGen (uniformGen FlowVector.zero) ⟨⟨1, 2, 3⟩, ⟨0, 0, 0, 1⟩, ⟨1, 1, 1⟩⟩).generate
        () ⟨5, 7, 9⟩
      = (uniformGen FlowVector.zero).generate ()
          ((Transform.computeAffine ⟨⟨1, 2, 3⟩, ⟨0, 0, 0, 1⟩, ⟨1, 1, 1⟩⟩).inverse.transformPoint3
            ⟨5, 7, 9⟩)
    ∧ (Transform.computeAffine ⟨⟨1, 2, 3⟩, ⟨0, 0, 0, 1⟩, ⟨1, 1, 1⟩⟩).transformPoint3
        ((Transform.computeAffine ⟨⟨1, 2, 3⟩, ⟨0, 0, 0, 1⟩, ⟨1, 1, 1⟩⟩).inverse.transformPoint3
          ⟨5, 7, 9⟩) = ⟨5, 7, 9⟩ :=
  ⟨(transformed_composition (uniformGen FlowVector.zero) ⟨⟨1, 2, 3⟩, ⟨0, 0, 0, 1⟩, ⟨1, 1, 1⟩⟩
      () ⟨5, 7, 9⟩).1,
   (transformed_composition (uniformGen FlowVector.zero) ⟨⟨1, 2, 3⟩, ⟨0, 0, 0, 1⟩, ⟨1, 1, 1⟩⟩
      () ⟨5, 7, 9⟩).2 (by decide)⟩

/-- C9: preparing the GPU mirror reuses the previous texture and view when a
previous mirror of equal size exists (the device's fresh-id counter does not
move — no allocation); otherwise (size changed, or no previous mirror) a fresh
texture and view are created; and in every case the entire texel buffer is
uploaded to the resulting texture on this pass. -/
theorem prepare_asset_reuse_and_upload :
    ∀ (src : FlowField) (prev : GpuFlowField) (n : ℕ) (q : List TextureWrite),
      (prev.size = src.size →
        (prepareAsset src (some prev) n q).1
          = Except.ok ⟨src.label, src.size, prev.texture, prev.textureView⟩
        ∧ (prepareAsset src (some prev) n q).2.1 = n)
      ∧ (prev.size ≠ src.size →
          (prepareAsset src (some prev) n q).1
            = Except.ok ⟨src.label, src.size, ⟨n, src.label, src.size⟩,
                ⟨n + 1, src.label.map (fun l => l ++ "_view")⟩⟩
          ∧ (prepareAsset src (some prev) n q).2.1 = n + 2
          ∧ (prev.texture.id < n → (⟨n, src.label, src.size⟩ : Texture) ≠ prev.texture))
      ∧ (prepareAsset src none n q).1
          = Except.ok ⟨src.label, src.size, ⟨n, src.label, src.size⟩,
              ⟨n + 1, src.label.map (fun l => l ++ "_view")⟩⟩
      ∧ (∀ prevOpt : Option GpuFlowField, ∃ g : GpuFlowField,
          (prepareAsset src prevOpt n q).1 = Except.ok g
          ∧ (prepareAsset src prevOpt n q).2.2
              = q ++ [⟨g.texture.id, src.texels, src.size.x * 8, src.size.y, src.size⟩]) := by
  intro src prev n q
  refine ⟨?_, ?_, ?_, ?_⟩
  · intro h
    constructor <;> simp [prepareAsset, h]
  · intro h
    refine ⟨by simp [prepareAsset, h], by simp [prepareAsset, h], ?_⟩
    intro hlt heq
    have hid : (⟨n, src.label, src.size⟩ : Texture).id = prev.texture.id := by rw [heq]
    simp only at hid
    omega
  · simp [prepareAsset]
  · intro prevOpt
    match prevOpt with
    | none => exact ⟨_, rfl, by simp [prepareAsset]⟩
    | some p =>
      by_cases h : p.size = src.size
      · exact ⟨⟨src.label, src.size, p.texture, p.textureView⟩,
          by simp [prepareAsset, h], by simp [prepareAsset, h]⟩
      · exact ⟨⟨src.label, src.size, ⟨n, src.label, src.size⟩,
            ⟨n + 1, src.label.map (fun l => l ++ "_view")⟩⟩,
          by simp [prepareAsset, h], by simp [prepareAsset, h]⟩

/-- Witness for C9: a `1×2×3` field prepared against an equal-size previous
mirror reuses its texture, against a `9×9×9` one allocates texture id 2, a
distinct texture. -/
theorem prepare_asset_reuse_and_upload_witness :
    (prepareAsset (FlowField.zeroed ⟨1, 2, 3⟩)
        (some ⟨none, ⟨1, 2, 3⟩, ⟨0, none, ⟨1, 2, 3⟩⟩, ⟨1, none⟩⟩) 2 []).1
      = Except.ok ⟨none, ⟨1, 2, 3⟩, ⟨0, none, ⟨1, 2, 3⟩⟩, ⟨1, none⟩⟩
    ∧ (prepareAsset (FlowField.zeroed ⟨1, 2, 3⟩)
        (some ⟨none, ⟨9, 9, 9⟩, ⟨0, none, ⟨9, 9, 9⟩⟩, ⟨1, none⟩⟩) 2 []).1
      = Except.ok ⟨none, ⟨1, 2, 3⟩, ⟨2, none, ⟨1, 2, 3⟩⟩, ⟨3, none⟩⟩
    ∧ (⟨2, none, ⟨1, 2, 3⟩⟩ : Texture) ≠ (⟨0, none, ⟨9, 9, 9⟩⟩ : Texture) :=
  ⟨((prepare_asset_reuse_and_upload (FlowField.zeroed ⟨1, 2, 3⟩)
      ⟨none, ⟨1, 2, 3⟩, ⟨0, none, ⟨1, 2, 3⟩⟩, ⟨1, none⟩⟩ 2 []).1 rfl).1,
   ((prepare_asset_reuse_and_upload (FlowField.zeroed ⟨1, 2, 3⟩)
      ⟨none, ⟨9, 9, 9⟩, ⟨0, none, ⟨9, 9, 9⟩⟩, ⟨1, none⟩⟩ 2 []).2.1 (by decide)).1,
   ((prepare_asset_reuse_and_upload (FlowField.zeroed ⟨1, 2, 3⟩)
      ⟨none, ⟨9, 9, 9⟩, ⟨0, none, ⟨9, 9, 9⟩⟩, ⟨1, none⟩⟩ 2 []).2.1 (by decide)).2.2
     (by decide)⟩

/-- C10 counterexample: at a texture request no backend can satisfy — extent
`16384 × 16384 × 16384`, far beyond 3D-texture limits (and whose u32 texel
count wraps to 0) — `prepare_asset` still returns `Ok` with a fully
constructed mirror: the function has no failure path, so the claimed explicit
error result cannot be produced. -/
theorem prepare_asset_over_limit_returns_ok :
    (prepareAsset (FlowField.zeroed ⟨16384, 16384, 16384⟩) none 0 []).1
      = Except.ok ⟨none, ⟨16384, 16384, 16384⟩, ⟨0, none, ⟨16384, 16384, 16384⟩⟩,
          ⟨1, none⟩⟩ := rfl

/-- C10 amended: `prepare_asset` never reports failure — it returns `Ok` with
a fully-constructed mirror for every input; resource-allocation failure at the
device boundary is not surfaced as an error result of this pass (the
wgpu-style boundary reports such failures out-of-band). -/
theorem prepare_asset_never_errors :
    ∀ (src : FlowField) (prevOpt : Option GpuFlowField) (n : ℕ) (q : List TextureWrite),
      ∃ g : GpuFlowField, (prepareAsset src prevOpt n q).1 = Except.ok g := by
  intro src prevOpt n q
  match prevOpt with
  | none => exact ⟨_, rfl⟩
  | some p =>
    by_cases h : p.size = src.size
    · exact ⟨⟨src.label, src.size, p.texture, p.textureView⟩, by simp [prepareAsset, h]⟩
    · exact ⟨⟨src.label, src.size, ⟨n, src.label, src.size⟩,
          ⟨n + 1, src.label.map (fun l => l ++ "_view")⟩⟩, by simp [prepareAsset, h]⟩

end ConcreteEvaluation

end Vane
